import Mathlib

/-!
# Verification of the Vrite document patch engine and legacy text matcher

Shallow embedding of `src/backend/app.py` (FastAPI backend of farev/Vrite2.0)
together with the document patch engine it serves.  The Lexical data model
(`TextSegment`, `SimplifiedBlock`, `SimplifiedDocument`) is translated from the
pydantic models at `src/backend/app.py:53-66`.  The Patch Validator, Patch
Applier, Change Log and Exact-Text Matcher are not present under `src/` (only
their wire declarations and callers are); they are modelled from the spec as
marked on each definition.  The conversation-history truncation and the
blank-document check are translated directly from `process_ai_command`
(`app.py:614`) and `process_ai_command_v2` (`app.py:741`).
-/

/-- `TextSegment` pydantic model, `src/backend/app.py:53-55`:
`text: str`, `format: int = 0` (bitmask: 1 = bold, 2 = italic, 4 = underline).
The spec calls this field `formatMask`. -/
structure TextSegment where
  text : String
  format : Int := 0
  deriving Repr, DecidableEq

/-- Block kind, the `type` literal of `SimplifiedBlock`, `src/backend/app.py:59`:
one of `'paragraph' | 'heading' | 'list-item'`. -/
inductive BlockType where
  | paragraph
  | heading
  | listItem
  deriving Repr, DecidableEq

/-- Heading tag literal `'h1' | 'h2' | 'h3'`, `src/backend/app.py:60`.
The spec calls this `headingLevel` in {1,2,3}. -/
inductive HeadingTag where
  | h1
  | h2
  | h3
  deriving Repr, DecidableEq

/-- List type literal `'bullet' | 'number'`, `src/backend/app.py:61`.
The spec calls this `listKind`. -/
inductive ListKind where
  | bullet
  | number
  deriving Repr, DecidableEq

/-- `SimplifiedBlock` pydantic model, `src/backend/app.py:57-63`.  Spec names:
`kind` = `type`, `headingLevel` = `tag`, `listKind` = `listType`,
`indentDepth` = `indent`. -/
structure SimplifiedBlock where
  id : String
  type : BlockType
  tag : Option HeadingTag := none
  listType : Option ListKind := none
  indent : Option Int := none
  segments : List TextSegment
  deriving Repr, DecidableEq

/-- `SimplifiedDocument` pydantic model, `src/backend/app.py:65-66`. -/
structure SimplifiedDocument where
  blocks : List SimplifiedBlock
  deriving Repr, DecidableEq

/-- Operation wire shape (spec section 6, and the `edit_document` tool schema at
`src/backend/app.py:235-312`): discriminated by the `operation` field, with
`afterBlockId = null` as the start-of-document sentinel for `insert_block`. -/
inductive Operation where
  | insert_block (afterId : Option String) (newBlock : SimplifiedBlock)
  | replace_block (blockId : String) (newBlock : SimplifiedBlock)
  | delete_block (blockId : String)
  | modify_segments (blockId : String) (newSegments : List TextSegment)
  deriving Repr, DecidableEq

/-- Error taxonomy of the patch engine (spec section 7). -/
inductive ErrorKind where
  | DuplicateId
  | UnknownAnchor
  | InvalidBlock
  | UnknownBlock
  | InvalidSegments
  deriving Repr, DecidableEq

/-- Modelled from the spec: a segment's `formatMask` (`format` in the source
models) is valid exactly in the integer range 0-7 (spec section 3). -/
def validSegment (s : TextSegment) : Bool :=
  0 ≤ s.format && s.format ≤ 7

/-- Modelled from the spec: `validateBlock` of the Document Model (spec 4.1),
missing from `src/`; enforces the section-3 Block invariants: non-empty
`segments`, every `formatMask` in 0-7, and kind-specific fields present/absent
correctly (`tag` only on headings, `listType`/`indent` only on list items,
`indent` non-negative when present). -/
def validateBlock (b : SimplifiedBlock) : Bool :=
  !b.segments.isEmpty &&
  b.segments.all validSegment &&
  (match b.type with
   | .paragraph => b.tag.isNone && b.listType.isNone && b.indent.isNone
   | .heading => b.tag.isSome && b.listType.isNone && b.indent.isNone
   | .listItem =>
       b.listType.isSome && b.tag.isNone &&
       (match b.indent with
        | none => true
        | some i => 0 ≤ i))

/-- Modelled from the spec: `findBlockIndex` of the Document Model (spec 4.1),
missing from `src/`; index of the first block carrying the id, or `none`. -/
def findBlockIndex (doc : SimplifiedDocument) (id : String) : Option Nat :=
  doc.blocks.findIdx? (fun b => b.id == id)

/-- Whether some block of the document carries the id. -/
def containsId (doc : SimplifiedDocument) (id : String) : Bool :=
  (findBlockIndex doc id).isSome

/-- Modelled from the spec: validation of one operation against one (simulated)
snapshot, following the validity-rule table of spec 4.3, checks in table order.
Returns `none` when the operation is valid, else the failure kind. -/
def validateOp (doc : SimplifiedDocument) : Operation → Option ErrorKind
  | .insert_block afterId nb =>
    if containsId doc nb.id then some .DuplicateId
    else
      match afterId with
      | some a =>
        if containsId doc a then
          if validateBlock nb then none else some .InvalidBlock
        else some .UnknownAnchor
      | none => if validateBlock nb then none else some .InvalidBlock
  | .replace_block bid nb =>
    match findBlockIndex doc bid with
    | none => some .UnknownBlock
    | some _ =>
      if nb.id == bid || !containsId doc nb.id then
        if validateBlock nb then none else some .InvalidBlock
      else some .InvalidBlock
  | .delete_block bid =>
    if containsId doc bid then none else some .UnknownBlock
  | .modify_segments bid segs =>
    match findBlockIndex doc bid with
    | none => some .UnknownBlock
    | some _ =>
      if segs.isEmpty || !segs.all validSegment then some .InvalidSegments
      else none

/-- Replace the element at one index by `f` of it, other positions untouched. -/
def modifyIdx : List α → Nat → (α → α) → List α
  | [], _, _ => []
  | a :: l, 0, f => f a :: l
  | a :: l, n + 1, f => a :: modifyIdx l n f

/-- Modelled from the spec: the Patch Applier step for one operation
(spec 4.4), missing from `src/` — `insert_block` splices after the anchor (or
at index 0 on the `null` sentinel), `replace_block` substitutes in place,
`delete_block` removes at the found index, `modify_segments` replaces only the
`segments` sequence of the found block.  On an id the snapshot lacks (a state
validation already excludes) the snapshot is returned unchanged. -/
def applyOp (doc : SimplifiedDocument) : Operation → SimplifiedDocument
  | .insert_block none nb => ⟨nb :: doc.blocks⟩
  | .insert_block (some a) nb =>
    match findBlockIndex doc a with
    | some i => ⟨doc.blocks.take (i + 1) ++ nb :: doc.blocks.drop (i + 1)⟩
    | none => doc
  | .replace_block bid nb =>
    match findBlockIndex doc bid with
    | some i => ⟨doc.blocks.set i nb⟩
    | none => doc
  | .delete_block bid =>
    match findBlockIndex doc bid with
    | some i => ⟨doc.blocks.eraseIdx i⟩
    | none => doc
  | .modify_segments bid segs =>
    match findBlockIndex doc bid with
    | some i => ⟨modifyIdx doc.blocks i (fun b => { b with segments := segs })⟩
    | none => doc

/-- The snapshot as it stands after a prefix of the batch (the sequential
simulation the Validator runs, spec 4.3). -/
def simulate (doc : SimplifiedDocument) (ops : List Operation) : SimplifiedDocument :=
  ops.foldl applyOp doc

/-- Modelled from the spec: the Patch Validator over a whole batch (spec 4.3),
missing from `src/`; validates each operation against the snapshot as it would
be after all prior operations, and returns the index and kind of the first
invalid operation, or `none` when the full batch is valid.  It performs no
mutation. -/
def validateSeq (doc : SimplifiedDocument) : List Operation → Option (Nat × ErrorKind)
  | [] => none
  | op :: rest =>
    match validateOp doc op with
    | some k => some (0, k)
    | none => (validateSeq (applyOp doc op) rest).map (fun p => (p.1 + 1, p.2))

/-- Change record of the Change Log (spec 4.5): operation kind, affected block
id, and before/after content. -/
structure ChangeRecord where
  kind : String
  blockId : String
  before : Option SimplifiedBlock
  after : Option SimplifiedBlock
  deriving Repr, DecidableEq

/-- First block carrying the id, if any. -/
def blockById (doc : SimplifiedDocument) (id : String) : Option SimplifiedBlock :=
  doc.blocks.find? (fun b => b.id == id)

/-- Modelled from the spec: the Change Log entry for one applied operation
(spec 4.5), missing from `src/`: kind, affected id, before/after content. -/
def recordOf (doc : SimplifiedDocument) : Operation → ChangeRecord
  | .insert_block _ nb => ⟨"insert_block", nb.id, none, some nb⟩
  | .replace_block bid nb => ⟨"replace_block", bid, blockById doc bid, some nb⟩
  | .delete_block bid => ⟨"delete_block", bid, blockById doc bid, none⟩
  | .modify_segments bid segs =>
    ⟨"modify_segments", bid, blockById doc bid,
     (blockById doc bid).map (fun b => { b with segments := segs })⟩

/-- Modelled from the spec: the Patch Applier fold over a validated batch
(spec 4.4/4.5), producing the new snapshot and the change log in operation
order. -/
def applySeq (doc : SimplifiedDocument) : List Operation → SimplifiedDocument × List ChangeRecord
  | [] => (doc, [])
  | op :: rest =>
    let r := applySeq (applyOp doc op) rest
    (r.1, recordOf doc op :: r.2)

/-- The `{ kind, operationIndex, detail }` rejection shape of spec section 6. -/
structure PatchError where
  kind : ErrorKind
  operationIndex : Nat
  detail : String
  deriving Repr, DecidableEq

/-- Human-readable detail string per failure kind. -/
def detailFor : ErrorKind → String
  | .DuplicateId => "newBlock.id already exists in the document"
  | .UnknownAnchor => "afterId does not name an existing block"
  | .InvalidBlock => "newBlock violates the Block invariants"
  | .UnknownBlock => "blockId does not name an existing block"
  | .InvalidSegments => "newSegments is empty or malformed"

/-- The structured-patch entry point's result: new (or original) snapshot, the
change log, and the rejection when validation failed (spec section 6). -/
structure PatchResult where
  document : SimplifiedDocument
  changes : List ChangeRecord
  error : Option PatchError
  deriving Repr, DecidableEq

/-- Modelled from the spec: the structured-patch entry point (spec 4.4's
atomicity policy, missing from `src/`): if the Validator rejects any operation
the Applier is never invoked and the original snapshot is returned unchanged
with the rejection; else the Applier's fold result and change log. -/
def processBatch (doc : SimplifiedDocument) (ops : List Operation) : PatchResult :=
  match validateSeq doc ops with
  | some (i, k) => ⟨doc, [], some ⟨k, i, detailFor k⟩⟩
  | none =>
    let r := applySeq doc ops
    ⟨r.1, r.2, none⟩

/-- The start block of the spec's section-8 scenario. -/
def scenarioBefore : SimplifiedBlock :=
  { id := "b0", type := .paragraph, segments := [{ text := "education" }] }

/-- The replacement block of the spec's section-8 scenario. -/
def scenarioAfter : SimplifiedBlock :=
  { id := "b0", type := .heading, tag := some .h2,
    segments := [{ text := "Education", format := 1 }] }

example :
    processBatch ⟨[scenarioBefore]⟩ [.replace_block "b0" scenarioAfter] =
    ⟨⟨[scenarioAfter]⟩,
     [⟨"replace_block", "b0", some scenarioBefore, some scenarioAfter⟩],
     none⟩ := by decide

/-! ## Exact-Text Matcher (legacy text-diff mode)

The matcher of spec 4.2 is missing from `src/` (the backend at
`src/backend/app.py:669-679` only collects the `(old_text, new_text)` pairs
from the model's `replace_text` tool calls and returns them to the caller, who
applies them).  It is modelled from the spec over `List Char` — the faithful
rendering of a Python `str` as a sequence of characters, with offsets counted
in characters. -/

/-- One `(oldText, newText)` pair with optional context hints (spec 4.2/6). -/
structure TextPair where
  oldText : List Char
  newText : List Char
  contextBefore : Option (List Char) := none
  contextAfter : Option (List Char) := none
  deriving Repr, DecidableEq

/-- Why a pair was skipped (spec 4.2, steps 2-3). -/
inductive SkipReason where
  | InvalidOperation
  | TextNotFound
  deriving Repr, DecidableEq

/-- Positional change record of the legacy mode: character offset of the
match, old text, new text, and whether the choice was the ambiguity heuristic
(spec 4.2, steps 4-5). -/
structure TextChange where
  offset : Nat
  oldText : List Char
  newText : List Char
  ambiguous : Bool
  deriving Repr, DecidableEq

/-- A skipped pair with its reason (spec 4.2/6). -/
structure SkippedPair where
  oldText : List Char
  newText : List Char
  reason : SkipReason
  deriving Repr, DecidableEq

/-- Output of the legacy mode: final content, applied changes in order,
skipped pairs in order (spec section 6). -/
structure MatchResult where
  content : List Char
  changes : List TextChange
  skipped : List SkippedPair
  deriving Repr, DecidableEq

/-- Modelled from the spec: all character offsets at which `pat` occurs as an
exact substring of `content`, in increasing order. -/
def occurrences (content pat : List Char) : List Nat :=
  (List.range (content.length + 1)).filter (fun i => pat.isPrefixOf (content.drop i))

/-- Modelled from the spec: an occurrence at offset `i` satisfies the context
hints when `contextBefore` stands immediately before it and `contextAfter`
immediately after the matched text (spec 4.2, step 5); absent hints always
hold. -/
def contextOk (content : List Char) (p : TextPair) (i : Nat) : Bool :=
  (match p.contextBefore with
   | none => true
   | some cb => cb.isSuffixOf (content.take i)) &&
  (match p.contextAfter with
   | none => true
   | some ca => ca.isPrefixOf (content.drop (i + p.oldText.length)))

/-- Replace the occurrence of `old` at offset `i` of `content` by `new`. -/
def replaceAt (content : List Char) (i : Nat) (old new : List Char) : List Char :=
  content.take i ++ new ++ content.drop (i + old.length)

/-- Modelled from the spec: the matcher's treatment of one pair against the
current content (spec 4.2, steps 1-5): empty `oldText` is skipped as
`InvalidOperation`; zero occurrences skip the pair as `TextNotFound`; a unique
occurrence is replaced and recorded; on several occurrences the context hints
filter the candidates, and when ambiguity remains the first remaining
occurrence is replaced, flagged as the heuristic choice. -/
def stepPair (content : List Char) (p : TextPair) :
    List Char × Option TextChange × Option SkippedPair :=
  if p.oldText.isEmpty then
    (content, none, some ⟨p.oldText, p.newText, .InvalidOperation⟩)
  else
    match occurrences content p.oldText with
    | [] => (content, none, some ⟨p.oldText, p.newText, .TextNotFound⟩)
    | [i] =>
      (replaceAt content i p.oldText p.newText,
       some ⟨i, p.oldText, p.newText, false⟩, none)
    | i :: _ :: _ =>
      match (occurrences content p.oldText).filter (contextOk content p) with
      | [j] =>
        (replaceAt content j p.oldText p.newText,
         some ⟨j, p.oldText, p.newText, false⟩, none)
      | j :: _ :: _ =>
        (replaceAt content j p.oldText p.newText,
         some ⟨j, p.oldText, p.newText, true⟩, none)
      | [] =>
        (replaceAt content i p.oldText p.newText,
         some ⟨i, p.oldText, p.newText, true⟩, none)

/-- Modelled from the spec: the Exact-Text Matcher over an ordered pair list
(spec 4.2): each pair is matched against the current content — prior
replacements visible to later searches — and the applied and skipped records
are accumulated in order. -/
def applyTextPairs (content : List Char) : List TextPair → MatchResult
  | [] => ⟨content, [], []⟩
  | p :: rest =>
    let s := stepPair content p
    let r := applyTextPairs s.1 rest
    ⟨r.content, s.2.1.toList ++ r.changes, s.2.2.toList ++ r.skipped⟩

example :
    applyTextPairs "Education\n\nEducation".data
      [{ oldText := "Education".data, newText := "**Education**".data }] =
    ⟨"**Education**\n\nEducation".data,
     [⟨0, "Education".data, "**Education**".data, true⟩], []⟩ := by decide

example :
    applyTextPairs "Hello".data
      [{ oldText := "Goodbye".data, newText := "Hi".data }] =
    ⟨"Hello".data, [], [⟨"Goodbye".data, "Hi".data, .TextNotFound⟩]⟩ := by decide

/-! ## Message construction of the two endpoints (`src/backend/app.py`) -/

/-- One chat message of the OpenAI message list (role and content). -/
structure Message where
  role : String
  content : String
  deriving Repr, DecidableEq

/-- The history slice both endpoints splice into the message list:
`src/backend/app.py:629-631` and `755-759` —
`if request.conversation_history: messages.extend(request.conversation_history[-14:])`.
Python's `h[-14:]` is `h.drop (h.length - 14)`. -/
def recentHistory (history : List Message) : List Message :=
  if history.isEmpty then [] else history.drop (history.length - 14)

/-- Message-list shape shared by `process_ai_command` (`app.py:620-652`) and
`process_ai_command_v2` (`app.py:750-792`): the system message, then the
truncated history, then the current user message.  The system/user contents
(prompts, document JSON) are abstracted as parameters — their construction is
out of the model's scope. -/
def buildMessages (sys : Message) (history : List Message) (user : Message) : List Message :=
  sys :: (recentHistory history ++ [user])

/-! ## Blank-document classification of `/api/command/v2` -/

/-- Python `s.strip() == ''`: every character of `s` is whitespace. -/
def stripIsEmpty (s : String) : Bool :=
  s.data.all Char.isWhitespace

/-- `is_blank` of `process_ai_command_v2`, `src/backend/app.py:777-780`:
`len(blocks) == 0 or (len(blocks) == 1 and all(s.text.strip() == '' for s in blocks[0].segments))`. -/
def isBlankDoc (d : SimplifiedDocument) : Bool :=
  d.blocks.length == 0 ||
  (d.blocks.length == 1 &&
    (d.blocks.headD { id := "", type := .paragraph, segments := [] }).segments.all
      (fun s => stripIsEmpty s.text))

/-- The blank-document instruction of `src/backend/app.py:781`. -/
def BLANK_NOTE : String :=
  "\n\nIMPORTANT: The document is BLANK. You MUST use multiple insert_block operations (one per paragraph/heading/list-item). Do NOT use modify_segments. Create each piece of content as a separate block with its own insert_block operation."

/-- `blank_note` of `src/backend/app.py:781`: the instruction exactly when the
document is classified blank, else the empty string appended to the user
message. -/
def blankNoteOf (d : SimplifiedDocument) : String :=
  if isBlankDoc d then BLANK_NOTE else ""

/-! ## Helper lemmas about the batch validator -/

/-- Fallback operation for index access (never the result of a lookup that
matters: every use is guarded by a length bound). -/
def noOp : Operation := .delete_block ""

theorem simulate_nil (doc : SimplifiedDocument) : simulate doc [] = doc := rfl

theorem simulate_cons (doc : SimplifiedDocument) (op : Operation) (ops : List Operation) :
    simulate doc (op :: ops) = simulate (applyOp doc op) ops := rfl

/-- The batch validator accepts exactly when every operation is valid against
the snapshot as simulated after its predecessors. -/
theorem validateSeq_eq_none_iff (doc : SimplifiedDocument) (ops : List Operation) :
    validateSeq doc ops = none ↔
    ∀ i, i < ops.length →
      validateOp (simulate doc (ops.take i)) (ops.getD i noOp) = none := by
  induction ops generalizing doc with
  | nil => simp [validateSeq]
  | cons op rest ih =>
    simp only [validateSeq]
    cases hv : validateOp doc op with
    | some k =>
      simp only [reduceCtorEq, false_iff, not_forall]
      refine ⟨0, by simp, ?_⟩
      simp [simulate, hv]
    | none =>
      rw [Option.map_eq_none']
      rw [ih (applyOp doc op)]
      constructor
      · intro h i hi
        cases i with
        | zero => simpa [simulate] using hv
        | succ j =>
          have hj : j < rest.length := by simpa using hi
          simpa [List.take_succ_cons, simulate_cons] using h j hj
      · intro h j hj
        have := h (j + 1) (by simpa using Nat.succ_lt_succ hj)
        simpa [List.take_succ_cons, simulate_cons] using this

/-- The batch validator reports exactly the index and kind of the first
invalid operation of the batch. -/
theorem validateSeq_eq_some_iff (doc : SimplifiedDocument) (ops : List Operation)
    (i : Nat) (k : ErrorKind) :
    validateSeq doc ops = some (i, k) ↔
    i < ops.length ∧
    validateOp (simulate doc (ops.take i)) (ops.getD i noOp) = some k ∧
    ∀ j, j < i → validateOp (simulate doc (ops.take j)) (ops.getD j noOp) = none := by
  induction ops generalizing doc i with
  | nil => simp [validateSeq]
  | cons op rest ih =>
    simp only [validateSeq]
    cases hv : validateOp doc op with
    | some k' =>
      constructor
      · intro h
        have hik : i = 0 ∧ k' = k := by
          constructor
          · exact (Prod.mk.injEq _ _ _ _ ▸ Option.some.inj h).1.symm
          · exact (Prod.mk.injEq _ _ _ _ ▸ Option.some.inj h).2
        obtain ⟨hi0, hkk⟩ := hik
        subst hi0; subst hkk
        refine ⟨by simp, ?_, by omega⟩
        simpa [simulate] using hv
      · rintro ⟨hlen, hval, hfirst⟩
        cases i with
        | zero =>
          have : validateOp doc op = some k := by simpa [simulate] using hval
          rw [hv] at this
          simpa using this
        | succ j =>
          have := hfirst 0 (by omega)
          have h0 : validateOp doc op = none := by simpa [simulate] using this
          rw [hv] at h0
          exact absurd h0 (by simp)
    | none =>
      constructor
      · intro h
        rw [Option.map_eq_some'] at h
        obtain ⟨⟨i', k''⟩, hrec, heq⟩ := h
        have hi : i' + 1 = i := (Prod.mk.injEq _ _ _ _ ▸ heq).1
        have hk : k'' = k := (Prod.mk.injEq _ _ _ _ ▸ heq).2
        subst hk
        obtain ⟨hlen, hval, hfirst⟩ := (ih (applyOp doc op) i').1 hrec
        subst hi
        refine ⟨by simpa using Nat.succ_lt_succ hlen, ?_, ?_⟩
        · simpa [List.take_succ_cons, simulate_cons] using hval
        · intro j hj
          cases j with
          | zero => simpa [simulate] using hv
          | succ j' =>
            have := hfirst j' (by omega)
            simpa [List.take_succ_cons, simulate_cons] using this
      · rintro ⟨hlen, hval, hfirst⟩
        cases i with
        | zero =>
          have : validateOp doc op = some k := by simpa [simulate] using hval
          rw [hv] at this
          simp at this
        | succ j =>
          have hj : j < rest.length := by simpa using hlen
          have hval' : validateOp (simulate (applyOp doc op) (rest.take j)) (rest.getD j noOp) = some k := by
            simpa [List.take_succ_cons, simulate_cons] using hval
          have hfirst' : ∀ j', j' < j →
              validateOp (simulate (applyOp doc op) (rest.take j')) (rest.getD j' noOp) = none := by
            intro j' hj'
            have := hfirst (j' + 1) (by omega)
            simpa [List.take_succ_cons, simulate_cons] using this
          have := (ih (applyOp doc op) j).2 ⟨hj, hval', hfirst'⟩
          rw [this]
          rfl

/-! ## C1 - C3: atomicity and rejection of the structured-patch mode -/

/-- C1: for every document snapshot and every batch of operations containing at
least one invalid operation (an operation invalid against the snapshot as
simulated after its predecessors), the structured-patch entry point returns a
document equal to the input document exactly, with an empty change log and a
rejection, regardless of how many earlier operations were individually
valid. -/
theorem batch_atomicity (doc : SimplifiedDocument) (ops : List Operation) (i : Nat)
    (hlen : i < ops.length)
    (hinv : validateOp (simulate doc (ops.take i)) (ops.getD i noOp) ≠ none) :
    (processBatch doc ops).document = doc ∧
    (processBatch doc ops).changes = [] ∧
    (processBatch doc ops).error.isSome = true := by
  have hne : validateSeq doc ops ≠ none := fun hnone =>
    hinv ((validateSeq_eq_none_iff doc ops).1 hnone i hlen)
  unfold processBatch
  cases hv : validateSeq doc ops with
  | none => exact absurd hv hne
  | some p =>
    obtain ⟨i', k⟩ := p
    exact ⟨rfl, rfl, rfl⟩

/-- Document of the C1 witness: one paragraph block `b0`. -/
def w1Doc : SimplifiedDocument :=
  ⟨[{ id := "b0", type := .paragraph, segments := [{ text := "x" }] }]⟩

/-- Batch of the C1 witness: one insert colliding with the existing id `b0`. -/
def w1Ops : List Operation :=
  [.insert_block none { id := "b0", type := .paragraph, segments := [{ text := "y" }] }]

theorem batch_atomicity_witness :
    0 < w1Ops.length ∧
    validateOp (simulate w1Doc (w1Ops.take 0)) (w1Ops.getD 0 noOp) ≠ none ∧
    ((processBatch w1Doc w1Ops).document = w1Doc ∧
     (processBatch w1Doc w1Ops).changes = [] ∧
     (processBatch w1Doc w1Ops).error.isSome = true) :=
  ⟨by decide, by decide, batch_atomicity w1Doc w1Ops 0 (by decide) (by decide)⟩

/-- C2: every structured-patch request whose operation list fails validation
yields a rejection of the `{ kind, operationIndex, detail }` shape naming the
index and kind of the first invalid operation — the named index is in range,
the operation there is invalid with exactly the named kind, and all earlier
operations are valid — together with the original document unchanged and an
empty change log (never a partially applied document). -/
theorem rejection_shape (doc : SimplifiedDocument) (ops : List Operation)
    (hfail : validateSeq doc ops ≠ none) :
    ∃ e : PatchError,
      processBatch doc ops = ⟨doc, [], some e⟩ ∧
      e.detail = detailFor e.kind ∧
      e.operationIndex < ops.length ∧
      validateOp (simulate doc (ops.take e.operationIndex)) (ops.getD e.operationIndex noOp) =
        some e.kind ∧
      ∀ j, j < e.operationIndex →
        validateOp (simulate doc (ops.take j)) (ops.getD j noOp) = none := by
  cases hv : validateSeq doc ops with
  | none => exact absurd hv hfail
  | some p =>
    obtain ⟨i, k⟩ := p
    obtain ⟨hlen, hval, hfirst⟩ := (validateSeq_eq_some_iff doc ops i k).1 hv
    refine ⟨⟨k, i, detailFor k⟩, ?_, rfl, hlen, hval, hfirst⟩
    unfold processBatch
    rw [hv]

/-- Document of the C2 witness: one paragraph block `a0`. -/
def w2Doc : SimplifiedDocument :=
  ⟨[{ id := "a0", type := .paragraph, segments := [{ text := "hello" }] }]⟩

/-- Batch of the C2 witness: a valid delete, then a `modify_segments` on an id
the document does not carry. -/
def w2Ops : List Operation :=
  [.delete_block "a0", .modify_segments "missing" [{ text := "z" }]]

theorem rejection_shape_witness :
    validateSeq w2Doc w2Ops ≠ none ∧
    (∃ e : PatchError,
      processBatch w2Doc w2Ops = ⟨w2Doc, [], some e⟩ ∧
      e.detail = detailFor e.kind ∧
      e.operationIndex < w2Ops.length ∧
      validateOp (simulate w2Doc (w2Ops.take e.operationIndex)) (w2Ops.getD e.operationIndex noOp) =
        some e.kind ∧
      ∀ j, j < e.operationIndex →
        validateOp (simulate w2Doc (w2Ops.take j)) (w2Ops.getD j noOp) = none) :=
  ⟨by decide, rejection_shape w2Doc w2Ops (by decide)⟩

/-- C3 (amended): a batch containing an `insert_block` whose `newBlock.id`
duplicates an id of the simulated document at that operation's position always
fails — the returned document is identical to the input and a rejection is
produced — and the failure kind is `DuplicateId` whenever every operation
before the duplicating insert is valid; an earlier invalid operation preempts
the batch with its own kind and index instead. -/
theorem duplicate_insert_rejected (doc : SimplifiedDocument) (ops : List Operation)
    (i : Nat) (afterId : Option String) (nb : SimplifiedBlock)
    (hlen : i < ops.length)
    (hop : ops.getD i noOp = .insert_block afterId nb)
    (hdup : containsId (simulate doc (ops.take i)) nb.id = true) :
    (processBatch doc ops).document = doc ∧
    (processBatch doc ops).changes = [] ∧
    (processBatch doc ops).error.isSome = true ∧
    ((∀ j, j < i → validateOp (simulate doc (ops.take j)) (ops.getD j noOp) = none) →
      processBatch doc ops = ⟨doc, [], some ⟨.DuplicateId, i, detailFor .DuplicateId⟩⟩) := by
  have hvi : validateOp (simulate doc (ops.take i)) (ops.getD i noOp) = some .DuplicateId := by
    rw [hop]
    simp [validateOp, hdup]
  have hne : validateSeq doc ops ≠ none := fun hnone => by
    have := (validateSeq_eq_none_iff doc ops).1 hnone i hlen
    rw [hvi] at this
    simp at this
  have hmain : (processBatch doc ops).document = doc ∧
      (processBatch doc ops).changes = [] ∧
      (processBatch doc ops).error.isSome = true := by
    unfold processBatch
    cases hv : validateSeq doc ops with
    | none => exact absurd hv hne
    | some p =>
      obtain ⟨i', k⟩ := p
      exact ⟨rfl, rfl, rfl⟩
  refine ⟨hmain.1, hmain.2.1, hmain.2.2, ?_⟩
  intro hfirst
  have hv : validateSeq doc ops = some (i, .DuplicateId) :=
    (validateSeq_eq_some_iff doc ops i .DuplicateId).2 ⟨hlen, hvi, hfirst⟩
  unfold processBatch
  rw [hv]

/-- Document of the C3 counterexample and witness: one paragraph block `b0`. -/
def c3Doc : SimplifiedDocument :=
  ⟨[{ id := "b0", type := .paragraph, segments := [{ text := "x" }] }]⟩

/-- A fresh block reusing the already-present id `b0`. -/
def c3Dup : SimplifiedBlock :=
  { id := "b0", type := .paragraph, segments := [{ text := "y" }] }

/-- The C3 counterexample batch: an invalid delete precedes the duplicating
insert. -/
def c3Ops : List Operation :=
  [.delete_block "missing", .insert_block none c3Dup]

/-- C3 as stated is false: this batch contains an `insert_block` whose
`newBlock.id` duplicates the id `b0` present in the simulated document, yet
processing fails with kind `UnknownBlock` at index 0 (the earlier invalid
delete), not with `DuplicateId`; the document is still returned unchanged. -/
theorem duplicate_insert_counterexample :
    c3Ops.getD 1 noOp = .insert_block none c3Dup ∧
    containsId (simulate c3Doc (c3Ops.take 1)) c3Dup.id = true ∧
    (processBatch c3Doc c3Ops).document = c3Doc ∧
    (processBatch c3Doc c3Ops).error =
      some ⟨.UnknownBlock, 0, detailFor .UnknownBlock⟩ ∧
    (processBatch c3Doc c3Ops).error.map PatchError.kind ≠ some .DuplicateId := by
  decide

/-- The C3 witness batch: the duplicating insert alone. -/
def w3Ops : List Operation := [.insert_block none c3Dup]

theorem duplicate_insert_rejected_witness :
    0 < w3Ops.length ∧
    w3Ops.getD 0 noOp = .insert_block none c3Dup ∧
    containsId (simulate c3Doc (w3Ops.take 0)) c3Dup.id = true ∧
    processBatch c3Doc w3Ops =
      ⟨c3Doc, [], some ⟨.DuplicateId, 0, detailFor .DuplicateId⟩⟩ :=
  ⟨by decide, by decide, by decide,
   (duplicate_insert_rejected c3Doc w3Ops 0 none c3Dup (by decide) (by decide) (by decide)).2.2.2
     (by intro j hj; omega)⟩

/-! ## C4 - C5: segment validity and segment-replacement isolation -/

/-- Fallback block for index access (all uses are guarded by length bounds or
by equal lengths on both sides). -/
def defaultBlock : SimplifiedBlock :=
  { id := "", type := .paragraph, segments := [] }

/-- C4: a `formatMask` (`format`) value outside the integer range 0-7 makes
the segment invalid: any block carrying such a segment is rejected by block
validation, and a `modify_segments` operation carrying it on an existing block
fails validation with `InvalidSegments`. -/
theorem bad_format_invalidates (s : TextSegment)
    (hbad : ¬(0 ≤ s.format ∧ s.format ≤ 7)) :
    (∀ b : SimplifiedBlock, s ∈ b.segments → validateBlock b = false) ∧
    (∀ (doc : SimplifiedDocument) (bid : String) (segs : List TextSegment),
      s ∈ segs → containsId doc bid = true →
      validateOp doc (.modify_segments bid segs) = some .InvalidSegments) := by
  have hs : validSegment s = false := by
    by_cases h0 : 0 ≤ s.format
    · by_cases h7 : s.format ≤ 7
      · exact absurd ⟨h0, h7⟩ hbad
      · simp [validSegment, h7]
    · simp [validSegment, h0]
  constructor
  · intro b hmem
    have hall : b.segments.all validSegment = false :=
      List.all_eq_false.2 ⟨s, hmem, by simp [hs]⟩
    simp [validateBlock, hall]
  · intro doc bid segs hmem hcid
    have hall : segs.all validSegment = false :=
      List.all_eq_false.2 ⟨s, hmem, by simp [hs]⟩
    simp only [containsId] at hcid
    obtain ⟨i, hf⟩ := Option.isSome_iff_exists.1 hcid
    simp [validateOp, hf, hall]

/-- The out-of-range segment of the C4 witness: `formatMask = 8`. -/
def w4Seg : TextSegment := { text := "x", format := 8 }

/-- Block of the C4 witness carrying the out-of-range segment. -/
def w4Block : SimplifiedBlock := { id := "bb", type := .paragraph, segments := [w4Seg] }

/-- Document of the C4 witness: one paragraph block `t0`. -/
def w4Doc : SimplifiedDocument :=
  ⟨[{ id := "t0", type := .paragraph, segments := [{ text := "t" }] }]⟩

theorem bad_format_invalidates_witness :
    ¬(0 ≤ w4Seg.format ∧ w4Seg.format ≤ 7) ∧
    validateBlock w4Block = false ∧
    validateOp w4Doc (.modify_segments "t0" [w4Seg]) = some .InvalidSegments :=
  ⟨by decide,
   (bad_format_invalidates w4Seg (by decide)).1 w4Block (by decide),
   (bad_format_invalidates w4Seg (by decide)).2 w4Doc "t0" [w4Seg] (by decide) (by decide)⟩

theorem length_modifyIdx (l : List α) (n : Nat) (f : α → α) :
    (modifyIdx l n f).length = l.length := by
  induction l generalizing n with
  | nil => rfl
  | cons a t ih =>
    cases n with
    | zero => simp [modifyIdx]
    | succ m => simp [modifyIdx, ih]

theorem getD_modifyIdx_ne (l : List α) (n j : Nat) (f : α → α) (d : α) (h : j ≠ n) :
    (modifyIdx l n f).getD j d = l.getD j d := by
  induction l generalizing n j with
  | nil => rfl
  | cons a t ih =>
    cases n with
    | zero =>
      cases j with
      | zero => exact absurd rfl h
      | succ j' => simp [modifyIdx]
    | succ m =>
      cases j with
      | zero => simp [modifyIdx]
      | succ j' =>
        simp only [modifyIdx, List.getD_cons_succ]
        exact ih m j' (fun e => h (by omega))

theorem getD_modifyIdx_eq (l : List α) (n : Nat) (f : α → α) (d : α) (h : n < l.length) :
    (modifyIdx l n f).getD n d = f (l.getD n d) := by
  induction l generalizing n with
  | nil => simp at h
  | cons a t ih =>
    cases n with
    | zero => simp [modifyIdx]
    | succ m => simpa [modifyIdx] using ih m (by simpa using h)

/-- C5: applying a valid `modify_segments` operation on block `b` changes only
the `segments` sequence of `b`: the found block keeps its `id`, `kind`
(`type`), `headingLevel` (`tag`), `listKind` (`listType`) and `indentDepth`
(`indent`) unchanged and gets exactly the new segments, every other position
of the document is unchanged, and the block count is preserved. -/
theorem modify_segments_isolation (doc : SimplifiedDocument) (bid : String)
    (segs : List TextSegment)
    (hvalid : validateOp doc (.modify_segments bid segs) = none) :
    ∃ i, findBlockIndex doc bid = some i ∧ i < doc.blocks.length ∧
      (applyOp doc (.modify_segments bid segs)).blocks.length = doc.blocks.length ∧
      (∀ j, j ≠ i →
        (applyOp doc (.modify_segments bid segs)).blocks.getD j defaultBlock =
          doc.blocks.getD j defaultBlock) ∧
      ((applyOp doc (.modify_segments bid segs)).blocks.getD i defaultBlock).segments = segs ∧
      ((applyOp doc (.modify_segments bid segs)).blocks.getD i defaultBlock).id =
        (doc.blocks.getD i defaultBlock).id ∧
      ((applyOp doc (.modify_segments bid segs)).blocks.getD i defaultBlock).type =
        (doc.blocks.getD i defaultBlock).type ∧
      ((applyOp doc (.modify_segments bid segs)).blocks.getD i defaultBlock).tag =
        (doc.blocks.getD i defaultBlock).tag ∧
      ((applyOp doc (.modify_segments bid segs)).blocks.getD i defaultBlock).listType =
        (doc.blocks.getD i defaultBlock).listType ∧
      ((applyOp doc (.modify_segments bid segs)).blocks.getD i defaultBlock).indent =
        (doc.blocks.getD i defaultBlock).indent := by
  cases hf : findBlockIndex doc bid with
  | none => simp [validateOp, hf] at hvalid
  | some i =>
    have hlt : i < doc.blocks.length := by
      have := (List.findIdx?_eq_some_iff_findIdx_eq).1 hf
      exact this.1
    have happ : applyOp doc (.modify_segments bid segs) =
        ⟨modifyIdx doc.blocks i (fun b => { b with segments := segs })⟩ := by
      simp [applyOp, hf]
    refine ⟨i, rfl, hlt, ?_, ?_, ?_, ?_, ?_, ?_, ?_, ?_⟩
    · rw [happ]; exact length_modifyIdx _ _ _
    · intro j hj
      rw [happ]
      exact getD_modifyIdx_ne _ _ _ _ _ hj
    all_goals rw [happ]; rw [getD_modifyIdx_eq _ _ _ _ hlt]

/-- Document of the C5 witness: two blocks, a heading and a list item. -/
def w5Doc : SimplifiedDocument :=
  ⟨[{ id := "bA", type := .heading, tag := some .h1, segments := [{ text := "Title", format := 1 }] },
    { id := "bB", type := .listItem, listType := some .bullet, indent := some 0,
      segments := [{ text := "item" }] }]⟩

/-- Replacement segments of the C5 witness. -/
def w5Segs : List TextSegment := [{ text := "new item", format := 2 }]

theorem modify_segments_isolation_witness :
    validateOp w5Doc (.modify_segments "bB" w5Segs) = none ∧
    (∃ i, findBlockIndex w5Doc "bB" = some i ∧ i < w5Doc.blocks.length ∧
      (applyOp w5Doc (.modify_segments "bB" w5Segs)).blocks.length = w5Doc.blocks.length ∧
      (∀ j, j ≠ i →
        (applyOp w5Doc (.modify_segments "bB" w5Segs)).blocks.getD j defaultBlock =
          w5Doc.blocks.getD j defaultBlock) ∧
      ((applyOp w5Doc (.modify_segments "bB" w5Segs)).blocks.getD i defaultBlock).segments = w5Segs ∧
      ((applyOp w5Doc (.modify_segments "bB" w5Segs)).blocks.getD i defaultBlock).id =
        (w5Doc.blocks.getD i defaultBlock).id ∧
      ((applyOp w5Doc (.modify_segments "bB" w5Segs)).blocks.getD i defaultBlock).type =
        (w5Doc.blocks.getD i defaultBlock).type ∧
      ((applyOp w5Doc (.modify_segments "bB" w5Segs)).blocks.getD i defaultBlock).tag =
        (w5Doc.blocks.getD i defaultBlock).tag ∧
      ((applyOp w5Doc (.modify_segments "bB" w5Segs)).blocks.getD i defaultBlock).listType =
        (w5Doc.blocks.getD i defaultBlock).listType ∧
      ((applyOp w5Doc (.modify_segments "bB" w5Segs)).blocks.getD i defaultBlock).indent =
        (w5Doc.blocks.getD i defaultBlock).indent) :=
  ⟨by decide, modify_segments_isolation w5Doc "bB" w5Segs (by decide)⟩

/-! ## C6 - C8: the legacy exact-text matcher -/

/-- C6: when `oldText` occurs more than once in the content and the context
hints do not disambiguate — at least two occurrences still satisfy the hints
(in particular whenever the pair carries no hints at all, since absent hints
hold at every occurrence) — the matcher replaces the first remaining
occurrence: the head of the context-filtered occurrence list, which is a lower
bound of all remaining candidates, and records the pair as applied at that
offset, flagged as the heuristic choice, rather than skipping it. -/
theorem ambiguous_replaces_first (content : List Char) (p : TextPair)
    (hne : p.oldText ≠ [])
    (hamb : 2 ≤ ((occurrences content p.oldText).filter (contextOk content p)).length) :
    ∃ o rest,
      (occurrences content p.oldText).filter (contextOk content p) = o :: rest ∧
      (∀ j ∈ (occurrences content p.oldText).filter (contextOk content p), o ≤ j) ∧
      stepPair content p =
        (replaceAt content o p.oldText p.newText,
         some ⟨o, p.oldText, p.newText, true⟩, none) := by
  have hE : p.oldText.isEmpty = false := List.isEmpty_eq_false.2 hne
  have hocc2 : 2 ≤ (occurrences content p.oldText).length :=
    le_trans hamb (List.length_filter_le _ _)
  obtain ⟨i, itail, hocc⟩ : ∃ i itail, occurrences content p.oldText = i :: itail := by
    cases h : occurrences content p.oldText with
    | nil => rw [h] at hocc2; simp at hocc2
    | cons a t => exact ⟨a, t, rfl⟩
  obtain ⟨i2, itail2, hit⟩ : ∃ i2 itail2, itail = i2 :: itail2 := by
    cases h : itail with
    | nil => rw [h] at hocc; rw [hocc] at hocc2; simp at hocc2
    | cons a t => exact ⟨a, t, rfl⟩
  subst hit
  obtain ⟨o, otail, hfilt⟩ :
      ∃ o otail, (occurrences content p.oldText).filter (contextOk content p) = o :: otail := by
    cases h : (occurrences content p.oldText).filter (contextOk content p) with
    | nil => rw [h] at hamb; simp at hamb
    | cons a t => exact ⟨a, t, rfl⟩
  obtain ⟨o2, otail2, hot⟩ : ∃ o2 otail2, otail = o2 :: otail2 := by
    cases h : otail with
    | nil => rw [h] at hfilt; rw [hfilt] at hamb; simp at hamb
    | cons a t => exact ⟨a, t, rfl⟩
  subst hot
  have hpw : List.Pairwise (· < ·)
      ((occurrences content p.oldText).filter (contextOk content p)) :=
    List.Pairwise.filter _ (List.Pairwise.filter _ (List.pairwise_lt_range _))
  rw [hfilt] at hpw
  have hmin : ∀ j ∈ (occurrences content p.oldText).filter (contextOk content p), o ≤ j := by
    rw [hfilt]
    intro j hj
    rcases List.mem_cons.1 hj with h | h
    · omega
    · exact Nat.le_of_lt ((List.pairwise_cons.1 hpw).1 j h)
  have hfilt' : (i :: i2 :: itail2).filter (contextOk content p) = o :: o2 :: otail2 := by
    rw [← hocc]
    exact hfilt
  refine ⟨o, o2 :: otail2, hfilt, hmin, ?_⟩
  simp [stepPair, hE, hocc, hfilt']

/-- Content of the C6 witness, the spec's own example. -/
def eduContent : List Char := "Education\n\nEducation".data

/-- Pair of the C6 witness: no context hints. -/
def eduPair : TextPair :=
  { oldText := "Education".data, newText := "**Education**".data }

/-- Content of the second C6 witness input: `a` occurs at offsets 0, 2, 4. -/
def hintContent : List Char := "axaxa".data

/-- Pair of the second C6 witness input: the `contextBefore` hint keeps the
occurrences at offsets 2 and 4, so ambiguity survives the hint. -/
def hintPair : TextPair :=
  { oldText := "a".data, newText := "B".data, contextBefore := some "x".data }

theorem ambiguous_replaces_first_witness :
    eduPair.oldText ≠ [] ∧
    2 ≤ ((occurrences eduContent eduPair.oldText).filter (contextOk eduContent eduPair)).length ∧
    (∃ o rest,
      (occurrences eduContent eduPair.oldText).filter (contextOk eduContent eduPair) = o :: rest ∧
      (∀ j ∈ (occurrences eduContent eduPair.oldText).filter (contextOk eduContent eduPair), o ≤ j) ∧
      stepPair eduContent eduPair =
        (replaceAt eduContent o eduPair.oldText eduPair.newText,
         some ⟨o, eduPair.oldText, eduPair.newText, true⟩, none)) ∧
    applyTextPairs eduContent [eduPair] =
      ⟨"**Education**\n\nEducation".data,
       [⟨0, "Education".data, "**Education**".data, true⟩], []⟩ ∧
    2 ≤ ((occurrences hintContent hintPair.oldText).filter (contextOk hintContent hintPair)).length ∧
    (∃ o rest,
      (occurrences hintContent hintPair.oldText).filter (contextOk hintContent hintPair) = o :: rest ∧
      (∀ j ∈ (occurrences hintContent hintPair.oldText).filter (contextOk hintContent hintPair), o ≤ j) ∧
      stepPair hintContent hintPair =
        (replaceAt hintContent o hintPair.oldText hintPair.newText,
         some ⟨o, hintPair.oldText, hintPair.newText, true⟩, none)) ∧
    applyTextPairs hintContent [hintPair] =
      ⟨"axBxa".data, [⟨2, "a".data, "B".data, true⟩], []⟩ :=
  ⟨by decide, by decide,
   ambiguous_replaces_first eduContent eduPair (by decide) (by decide),
   by decide, by decide,
   ambiguous_replaces_first hintContent hintPair (by decide) (by decide),
   by decide⟩

/-- C7: a pair whose `oldText` has zero occurrences in the current content is
failed with `TextNotFound`: the content is unchanged for that pair, no change
is recorded, the pair lands in the skipped list, and the matcher continues
with the remaining pairs instead of aborting the batch. -/
theorem notfound_skips_and_continues (content : List Char) (p : TextPair)
    (rest : List TextPair)
    (hne : p.oldText ≠ [])
    (hzero : occurrences content p.oldText = []) :
    stepPair content p = (content, none, some ⟨p.oldText, p.newText, .TextNotFound⟩) ∧
    applyTextPairs content (p :: rest) =
      ⟨(applyTextPairs content rest).content,
       (applyTextPairs content rest).changes,
       ⟨p.oldText, p.newText, .TextNotFound⟩ :: (applyTextPairs content rest).skipped⟩ := by
  have hE : p.oldText.isEmpty = false := List.isEmpty_eq_false.2 hne
  have hstep : stepPair content p =
      (content, none, some ⟨p.oldText, p.newText, .TextNotFound⟩) := by
    simp [stepPair, hE, hzero]
  exact ⟨hstep, by simp [applyTextPairs, hstep]⟩

/-- Content of the C7 witness, the spec's own example. -/
def helloContent : List Char := "Hello".data

/-- Pair of the C7 witness: `oldText` absent from the content. -/
def goodbyePair : TextPair := { oldText := "Goodbye".data, newText := "Hi".data }

theorem notfound_skips_and_continues_witness :
    goodbyePair.oldText ≠ [] ∧
    occurrences helloContent goodbyePair.oldText = [] ∧
    (stepPair helloContent goodbyePair =
      (helloContent, none, some ⟨goodbyePair.oldText, goodbyePair.newText, .TextNotFound⟩) ∧
     applyTextPairs helloContent (goodbyePair :: []) =
      ⟨(applyTextPairs helloContent []).content,
       (applyTextPairs helloContent []).changes,
       ⟨goodbyePair.oldText, goodbyePair.newText, .TextNotFound⟩ ::
         (applyTextPairs helloContent []).skipped⟩) ∧
    applyTextPairs helloContent [goodbyePair] =
      ⟨"Hello".data, [], [⟨"Goodbye".data, "Hi".data, .TextNotFound⟩]⟩ :=
  ⟨by decide, by decide,
   notfound_skips_and_continues helloContent goodbyePair [] (by decide) (by decide),
   by decide⟩

/-- C8: the exact-text matcher is deterministic — two runs on the same input
content and the same ordered pair list produce the same final content, the
same ordered change records, and the same skipped list.  In this functional
embedding the matcher is a pure function, so determinism is inherent. -/
theorem matcher_deterministic (c1 c2 : List Char) (ps1 ps2 : List TextPair)
    (hc : c1 = c2) (hp : ps1 = ps2) :
    (applyTextPairs c1 ps1).content = (applyTextPairs c2 ps2).content ∧
    (applyTextPairs c1 ps1).changes = (applyTextPairs c2 ps2).changes ∧
    (applyTextPairs c1 ps1).skipped = (applyTextPairs c2 ps2).skipped := by
  subst hc
  subst hp
  exact ⟨rfl, rfl, rfl⟩

/-- Content of the C8 witness: two occurrences and one absent pair. -/
def detContent : List Char := "abcabc".data

/-- Pair list of the C8 witness. -/
def detPairs : List TextPair :=
  [{ oldText := "abc".data, newText := "x".data },
   { oldText := "zzz".data, newText := "y".data }]

theorem matcher_deterministic_witness :
    (applyTextPairs detContent detPairs).content =
      (applyTextPairs detContent detPairs).content ∧
    (applyTextPairs detContent detPairs).changes =
      (applyTextPairs detContent detPairs).changes ∧
    (applyTextPairs detContent detPairs).skipped =
      (applyTextPairs detContent detPairs).skipped :=
  matcher_deterministic detContent detContent detPairs detPairs rfl rfl

/-! ## C9 - C10: history truncation and blank-document classification -/

/-- C9: for a non-empty conversation history of length `n`, the message list
built for the model (by both `/api/command` and `/api/command/v2`, which share
this construction) carries exactly `min n 14` history entries between the
system and user messages, namely the last 14 entries of the history in their
original order. -/
theorem history_truncated_to_last14 (sys user : Message) (history : List Message)
    (hne : history ≠ []) :
    buildMessages sys history user =
      sys :: ((history.reverse.take 14).reverse ++ [user]) ∧
    (history.reverse.take 14).reverse.length = min history.length 14 := by
  have hdrop : history.drop (history.length - 14) = (history.reverse.take 14).reverse := by
    rw [List.take_reverse, List.reverse_reverse]
  constructor
  · unfold buildMessages recentHistory
    rw [if_neg (fun h => hne (List.isEmpty_iff.1 h))]
    rw [hdrop]
  · rw [← hdrop, List.length_drop]
    omega

/-- System message of the C9 witness. -/
def w9Sys : Message := ⟨"system", "S"⟩

/-- User message of the C9 witness. -/
def w9User : Message := ⟨"user", "U"⟩

/-- History of the C9 witness: 16 messages `m0` .. `m15`. -/
def w9Hist : List Message :=
  [⟨"user", "m0"⟩, ⟨"assistant", "m1"⟩, ⟨"user", "m2"⟩, ⟨"assistant", "m3"⟩,
   ⟨"user", "m4"⟩, ⟨"assistant", "m5"⟩, ⟨"user", "m6"⟩, ⟨"assistant", "m7"⟩,
   ⟨"user", "m8"⟩, ⟨"assistant", "m9"⟩, ⟨"user", "m10"⟩, ⟨"assistant", "m11"⟩,
   ⟨"user", "m12"⟩, ⟨"assistant", "m13"⟩, ⟨"user", "m14"⟩, ⟨"assistant", "m15"⟩]

/-- The last 14 entries of the C9 witness history, in original order. -/
def w9Last : List Message :=
  [⟨"user", "m2"⟩, ⟨"assistant", "m3"⟩,
   ⟨"user", "m4"⟩, ⟨"assistant", "m5"⟩, ⟨"user", "m6"⟩, ⟨"assistant", "m7"⟩,
   ⟨"user", "m8"⟩, ⟨"assistant", "m9"⟩, ⟨"user", "m10"⟩, ⟨"assistant", "m11"⟩,
   ⟨"user", "m12"⟩, ⟨"assistant", "m13"⟩, ⟨"user", "m14"⟩, ⟨"assistant", "m15"⟩]

theorem history_truncated_to_last14_witness :
    w9Hist ≠ [] ∧
    (buildMessages w9Sys w9Hist w9User =
       w9Sys :: ((w9Hist.reverse.take 14).reverse ++ [w9User]) ∧
     (w9Hist.reverse.take 14).reverse.length = min w9Hist.length 14) ∧
    (w9Hist.reverse.take 14).reverse = w9Last ∧
    buildMessages w9Sys w9Hist w9User = w9Sys :: (w9Last ++ [w9User]) :=
  ⟨by decide, history_truncated_to_last14 w9Sys w9User w9Hist (by decide),
   by decide, by decide⟩

set_option maxRecDepth 4096 in
/-- C10: `/api/command/v2` classifies the document as blank — and `blank_note`
is the blank-document instruction — exactly when the document has zero blocks,
or exactly one block every one of whose segments has whitespace-only text; in
particular a single block with an empty segments list is classified blank. -/
theorem blank_classification (d : SimplifiedDocument) :
    (isBlankDoc d = true ↔
      d.blocks = [] ∨
      ∃ b, d.blocks = [b] ∧ ∀ s ∈ b.segments, ∀ c ∈ s.text.data, c.isWhitespace) ∧
    (blankNoteOf d = BLANK_NOTE ↔ isBlankDoc d = true) ∧
    (∀ b : SimplifiedBlock, b.segments = [] → isBlankDoc ⟨[b]⟩ = true) := by
  obtain ⟨blocks⟩ := d
  refine ⟨?_, ?_, ?_⟩
  · cases blocks with
    | nil => simp [isBlankDoc]
    | cons b rest =>
      cases rest with
      | nil => simp [isBlankDoc, stripIsEmpty, List.all_eq_true]
      | cons b2 rest2 => simp [isBlankDoc]
  · unfold blankNoteOf
    by_cases h : isBlankDoc ⟨blocks⟩ = true
    · simp [h]
    · rw [if_neg h]
      simp only [h, iff_false]
      decide
  · intro b hseg
    simp [isBlankDoc, hseg]

/-- Document of the C10 witness: a single block with an empty segments list. -/
def w10Doc : SimplifiedDocument :=
  ⟨[{ id := "e", type := .paragraph, segments := [] }]⟩

set_option maxRecDepth 4096 in
theorem blank_classification_witness :
    isBlankDoc w10Doc = true ∧ blankNoteOf w10Doc = BLANK_NOTE :=
  ⟨(blank_classification w10Doc).2.2 { id := "e", type := .paragraph, segments := [] } rfl,
   by decide⟩
